import Mathlib

/-!
Verification of the account capability functions of the Cadence stdlib
(account creation, keys, contracts, balance/storage), shallowly embedded
from the Go source. Each capability function is modelled as a pure
function from a host-environment response model and its decoded,
well-typed arguments to a result (an interpreted value or a fault)
together with the ordered trace of host interactions it performed
(host reads, host mutations, and event emissions).
-/

namespace Cadence

/-- Account address (common.Address); the representation is opaque to this layer. -/
abbrev Address := Nat

/-- Byte slices (Go []byte), as lists of bytes. -/
abbrev Bytes := List Nat

/-- An error value returned by a host-environment method (Go non-nil error). -/
abbrev HostErr := String

/-- PublicKey struct: raw key material and the signature algorithm tag. -/
structure PublicKey where
  publicKey : Bytes
  signAlgo : Nat
deriving DecidableEq, Repr

/-- AccountKey struct: one slot in an account's key list. -/
structure AccountKey where
  keyIndex : Int
  publicKey : PublicKey
  hashAlgo : Nat
  weight : Int
  isRevoked : Bool
deriving DecidableEq, Repr

/-- Interpreted-language values produced and consumed by the capability
functions (only the shapes this layer constructs). NewSomeValueNonCopying
is someValue, NewNilValue is nil, ByteSliceToByteArrayValue is bytes. -/
inductive Value where
  | void
  | nil
  | someValue (v : Value)
  | address (a : Address)
  | string (s : String)
  | int (i : Int)
  | uint64 (n : Nat)
  | bytes (bs : Bytes)
  | accountKey (k : AccountKey)
  | deployedContract (addr : Address) (name : String) (code : Bytes)
deriving DecidableEq, Repr

/-- The event catalogue (the stdlib event composite types). -/
inductive EventType where
  | accountCreated
  | accountKeyAdded
  | accountKeyRemoved
  | accountContractAdded
  | accountContractUpdated
  | accountContractRemoved
deriving DecidableEq, Repr

/-- One emitted event: its type and the ordered payload values. -/
structure Event where
  eventType : EventType
  payload : List Value
deriving DecidableEq, Repr

/-- One host-environment interaction performed by a capability function,
recorded in order. EmitEvent is included so that the relative order of
host calls and event emissions is visible. -/
inductive HostCall where
  | getAccountContractCode (addr : Address) (name : String)
  | removeAccountContractCode (addr : Address) (name : String)
  | recordContractRemoval (addr : Address) (name : String)
  | commitStorage (commitContractUpdates : Bool)
  | getStorageUsed (addr : Address)
  | getStorageCapacity (addr : Address)
  | getAccountKey (addr : Address) (index : Int)
  | revokeAccountKey (addr : Address) (index : Int)
  | addEncodedAccountKey (addr : Address) (key : Bytes)
  | revokeEncodedAccountKey (addr : Address) (index : Int)
  | emitEvent (ev : Event)
deriving DecidableEq, Repr

/-- Whether a host call is an event emission. -/
def HostCall.isEmit : HostCall → Bool
  | .emitEvent _ => true
  | _ => false

/-- Whether a host call mutates host state (everything except pure reads
and event emission; CommitStorage flushes pending writes, so it counts). -/
def HostCall.isMutation : HostCall → Bool
  | .removeAccountContractCode _ _ => true
  | .recordContractRemoval _ _ => true
  | .commitStorage _ => true
  | .revokeAccountKey _ _ => true
  | .addEncodedAccountKey _ _ => true
  | .revokeEncodedAccountKey _ _ => true
  | _ => false

/-- A trace that emits no event. -/
def noEmit (trace : List HostCall) : Bool :=
  trace.all (fun call => ! call.isEmit)

/-- A trace that performs no host mutation. -/
def noMutation (trace : List HostCall) : Bool :=
  trace.all (fun call => ! call.isMutation)

/-- The fault classes a capability function can raise (Go panic):
user-facing legality faults (errors.NewDefaultUserError), hard host
faults (a non-nil error from a host method), and the dedicated
ContractRemovalError legality fault. -/
inductive Fault where
  | userError (msg : String)
  | hostError (e : HostErr)
  | contractRemoval (name : String)
deriving DecidableEq, Repr

/-- Result of invoking a capability function: the value returned to
interpreted code (or the fault that aborts execution), together with the
ordered trace of host interactions performed before returning. -/
abbrev CapResult := Except Fault Value × List HostCall

/-- AccountContractProvider interface: GetAccountContractCode returns the
code associated with an account contract (empty bytes when absent). -/
structure AccountContractProvider where
  GetAccountContractCode : Address → String → Except HostErr Bytes

/-- AccountContractRemovalHandler interface: adds RemoveAccountContractCode
(fallible) on top of the provider. RecordContractRemoval returns nothing
and is modelled purely through the call trace. -/
structure AccountContractRemovalHandler extends AccountContractProvider where
  RemoveAccountContractCode : Address → String → Except HostErr Unit

/-- AccountKeyProvider interface: GetAccountKey retrieves a key from an
account by index; a nil pointer (modelled none) with a nil error means
the key is absent. -/
structure AccountKeyProvider where
  GetAccountKey : Address → Int → Except HostErr (Option AccountKey)

/-- AccountKeyRevocationHandler interface: RevokeAccountKey removes a key
from an account by index; nil pointer with nil error means absent. -/
structure AccountKeyRevocationHandler where
  RevokeAccountKey : Address → Int → Except HostErr (Option AccountKey)

/-- StorageUsedProvider interface: CommitStorage plus GetStorageUsed. -/
structure StorageUsedProvider where
  CommitStorage : Bool → Except HostErr Unit
  GetStorageUsed : Address → Except HostErr Nat

/-- StorageCapacityProvider interface: CommitStorage plus GetStorageCapacity. -/
structure StorageCapacityProvider where
  CommitStorage : Bool → Except HostErr Unit
  GetStorageCapacity : Address → Except HostErr Nat

/-- AccountEncodedKeyAdditionHandler interface: AddEncodedAccountKey
appends an encoded key to an account. -/
structure AccountEncodedKeyAdditionHandler where
  AddEncodedAccountKey : Address → Bytes → Except HostErr Unit

/-- AccountEncodedKeyRevocationHandler interface: RevokeEncodedAccountKey
removes a key from an account by index and returns the encoded key. -/
structure AccountEncodedKeyRevocationHandler where
  RevokeEncodedAccountKey : Address → Int → Except HostErr Bytes

/-- Modelled from the spec: the external collaborators used by the
contract functions that are not part of the visible source: the parser
front end (parser.ParseProgram, returning a program or an error), the
enum check containsEnumsInProgram over a parsed program (its definition
is not in the visible source), and the content hash sha3.Sum256 from the
external crypto package. The parsed-program type is abstract. -/
structure Collaborators (Program : Type) where
  parseProgram : Bytes → Option Program
  containsEnumsInProgram : Program → Bool
  sha3Sum256 : Bytes → Bytes

/-- CodeToHashValue: hash the code with sha3.Sum256 and wrap it as a
byte-array value for an event payload. -/
def CodeToHashValue {P : Type} (c : Collaborators P) (code : Bytes) : Value :=
  Value.bytes (c.sha3Sum256 code)

/-- NewAccountKeyValue: the interpreted AccountKey composite built from an
AccountKey. (In keys.get and keys.revoke the public-key validation handler
passed here is the no-op one: host-stored keys are assumed validated.) -/
def NewAccountKeyValue (k : AccountKey) : Value :=
  Value.accountKey k

/-- Shared success tail of the contract change function: pick the event
type by isUpdate, hash the new code, emit the event, and return a
DeployedContract value wrapping the new code. The trace starts with the
GetAccountContractCode read performed by the precondition gate. -/
def contractsChangeEmitAndReturn {P : Type} (c : Collaborators P)
    (addr : Address) (isUpdate : Bool) (name : String) (code : Bytes) :
    CapResult :=
  let eventType := if isUpdate then EventType.accountContractUpdated
    else EventType.accountContractAdded
  (.ok (.deployedContract addr name code),
   [.getAccountContractCode addr name,
    .emitEvent ⟨eventType, [.address addr, CodeToHashValue c code, .string name]⟩])

/-- newAuthAccountContractsChangeFunction: shared implementation of
contracts.add (isUpdate = false) and contracts.update (isUpdate = true).
Rejects an empty name, reads the existing code, enforces the
add/update precondition, then emits the event and returns the new
DeployedContract value. The actual persistence of the new code is
delegated (the update/instantiation steps are commented out in the
source), so no mutating host method is called. -/
def newAuthAccountContractsChangeFunction {P : Type} (c : Collaborators P)
    (handler : AccountContractProvider) (addr : Address) (isUpdate : Bool)
    (name : String) (code : Bytes) : CapResult :=
  if name = "" then
    (.error (.userError "contract name argument cannot be empty"), [])
  else
    match handler.GetAccountContractCode addr name with
    | .error e => (.error (.hostError e), [.getAccountContractCode addr name])
    | .ok existingCode =>
      if isUpdate then
        if existingCode.length = 0 then
          (.error (.userError "cannot update non-existing contract"),
           [.getAccountContractCode addr name])
        else
          contractsChangeEmitAndReturn c addr isUpdate name code
      else
        if existingCode.length > 0 then
          (.error (.userError "cannot overwrite existing contract"),
           [.getAccountContractCode addr name])
        else
          contractsChangeEmitAndReturn c addr isUpdate name code

/-- newAccountContractsGetFunction: read the code for (address, name);
non-empty code yields a present DeployedContract value, empty code
yields nil. No event. -/
def newAccountContractsGetFunction (provider : AccountContractProvider)
    (addr : Address) (name : String) : CapResult :=
  match provider.GetAccountContractCode addr name with
  | .error e => (.error (.hostError e), [.getAccountContractCode addr name])
  | .ok code =>
    if code.length > 0 then
      (.ok (.someValue (.deployedContract addr name code)),
       [.getAccountContractCode addr name])
    else
      (.ok .nil, [.getAccountContractCode addr name])

/-- newAuthAccountContractsRemoveFunction: read the current code; if
non-empty, parse it and fail with ContractRemovalError when it parses
and declares an enum (an unparsable existing program does not block
removal); otherwise remove the code, record the removal, emit
AccountContractRemoved, and return the removed DeployedContract value;
if the current code is empty, return nil. -/
def newAuthAccountContractsRemoveFunction {P : Type} (c : Collaborators P)
    (handler : AccountContractRemovalHandler) (addr : Address)
    (name : String) : CapResult :=
  match handler.GetAccountContractCode addr name with
  | .error e => (.error (.hostError e), [.getAccountContractCode addr name])
  | .ok code =>
    if code.length > 0 then
      if (match c.parseProgram code with
          | some existingProgram => c.containsEnumsInProgram existingProgram
          | none => false) then
        (.error (.contractRemoval name), [.getAccountContractCode addr name])
      else
        match handler.RemoveAccountContractCode addr name with
        | .error e =>
          (.error (.hostError e),
           [.getAccountContractCode addr name,
            .removeAccountContractCode addr name])
        | .ok _ =>
          (.ok (.someValue (.deployedContract addr name code)),
           [.getAccountContractCode addr name,
            .removeAccountContractCode addr name,
            .recordContractRemoval addr name,
            .emitEvent ⟨.accountContractRemoved,
                        [.address addr, CodeToHashValue c code, .string name]⟩])
    else
      (.ok .nil, [.getAccountContractCode addr name])

/-- newAccountKeysGetFunction: call GetAccountKey; a host error is a hard
fault, a nil key with nil error yields nil (absence), and a present key
yields a present AccountKey value (validation short-circuited). -/
def newAccountKeysGetFunction (provider : AccountKeyProvider)
    (addr : Address) (index : Int) : CapResult :=
  match provider.GetAccountKey addr index with
  | .error e => (.error (.hostError e), [.getAccountKey addr index])
  | .ok none => (.ok .nil, [.getAccountKey addr index])
  | .ok (some accountKey) =>
    (.ok (.someValue (NewAccountKeyValue accountKey)),
     [.getAccountKey addr index])

/-- newAccountKeysRevokeFunction: call RevokeAccountKey; a host error is a
hard fault, a nil key yields nil with no event, and a present key first
emits AccountKeyRemoved with payload (address, index) and then yields a
present AccountKey value. -/
def newAccountKeysRevokeFunction (handler : AccountKeyRevocationHandler)
    (addr : Address) (index : Int) : CapResult :=
  match handler.RevokeAccountKey addr index with
  | .error e => (.error (.hostError e), [.revokeAccountKey addr index])
  | .ok none => (.ok .nil, [.revokeAccountKey addr index])
  | .ok (some accountKey) =>
    (.ok (.someValue (NewAccountKeyValue accountKey)),
     [.revokeAccountKey addr index,
      .emitEvent ⟨.accountKeyRemoved, [.address addr, .int index]⟩])

/-- newStorageUsedGetFunction: first CommitStorage with
commitContractUpdates = false (flushing cached values), then
GetStorageUsed; either failure is a hard fault. -/
def newStorageUsedGetFunction (provider : StorageUsedProvider)
    (addr : Address) : CapResult :=
  match provider.CommitStorage false with
  | .error e => (.error (.hostError e), [.commitStorage false])
  | .ok _ =>
    match provider.GetStorageUsed addr with
    | .error e =>
      (.error (.hostError e), [.commitStorage false, .getStorageUsed addr])
    | .ok n =>
      (.ok (.uint64 n), [.commitStorage false, .getStorageUsed addr])

/-- newStorageCapacityGetFunction: first CommitStorage with
commitContractUpdates = false, then GetStorageCapacity; either failure
is a hard fault. -/
def newStorageCapacityGetFunction (provider : StorageCapacityProvider)
    (addr : Address) : CapResult :=
  match provider.CommitStorage false with
  | .error e => (.error (.hostError e), [.commitStorage false])
  | .ok _ =>
    match provider.GetStorageCapacity addr with
    | .error e =>
      (.error (.hostError e), [.commitStorage false, .getStorageCapacity addr])
    | .ok n =>
      (.ok (.uint64 n), [.commitStorage false, .getStorageCapacity addr])

/-- newAddPublicKeyFunction (legacy addEncodedKey): call
AddEncodedAccountKey; on success emit AccountKeyAdded with payload
(address, key bytes) and return Void. -/
def newAddPublicKeyFunction (handler : AccountEncodedKeyAdditionHandler)
    (addr : Address) (publicKey : Bytes) : CapResult :=
  match handler.AddEncodedAccountKey addr publicKey with
  | .error e => (.error (.hostError e), [.addEncodedAccountKey addr publicKey])
  | .ok _ =>
    (.ok .void,
     [.addEncodedAccountKey addr publicKey,
      .emitEvent ⟨.accountKeyAdded, [.address addr, .bytes publicKey]⟩])

/-- newRemovePublicKeyFunction (legacy revokeEncodedKey): call
RevokeEncodedAccountKey; on success emit AccountKeyRemoved with payload
(address, returned key bytes) and return Void. -/
def newRemovePublicKeyFunction (handler : AccountEncodedKeyRevocationHandler)
    (addr : Address) (index : Int) : CapResult :=
  match handler.RevokeEncodedAccountKey addr index with
  | .error e => (.error (.hostError e), [.revokeEncodedAccountKey addr index])
  | .ok publicKey =>
    (.ok .void,
     [.revokeEncodedAccountKey addr index,
      .emitEvent ⟨.accountKeyRemoved, [.address addr, .bytes publicKey]⟩])

/-- Modelled from the spec: the host's per-execution contract-code store,
mapping (address, name) to the currently stored code (empty bytes when
absent). The concrete store lives in the excluded host environment. -/
abbrev ContractStore := Address → String → Bytes

/-- An AccountContractProvider whose GetAccountContractCode reads a
contract store and never fails. -/
def storeProvider (store : ContractStore) : AccountContractProvider :=
  ⟨fun a n => .ok (store a n)⟩

/-- Modelled from the spec: the persistence step of the add/update
pipeline. Actual persistence of the new code is delegated to the
excluded compilation/storage collaborator (the commented-out
updateAccountContractCode, which calls UpdateAccountContractCode on the
host interface): after the change function's precondition gate passes,
the collaborator stores the new code under (address, name). -/
def updateAccountContractCode (store : ContractStore) (addr : Address)
    (name : String) (code : Bytes) : ContractStore :=
  fun a n => if a = addr ∧ n = name then code else store a n

/-- Modelled from the spec: validation/compilation of the new code is
delegated to the excluded collaborator; deployed code must parse and
declare exactly one contract or contract interface, so successfully
validated code is in particular non-empty. Only that consequence is
modelled here. -/
def validateNewContractCode (code : Bytes) : Bool :=
  ! code.isEmpty

/-- Modelled from the spec: the composed contracts.add pipeline over a
contract store: run the change function's precondition gate
(isUpdate = false) against the store, and on success run the delegated
validation and persistence, yielding the updated store (none when the
gate or the validation fails). -/
def contractsAddPipeline {P : Type} (c : Collaborators P)
    (store : ContractStore) (addr : Address) (name : String)
    (code : Bytes) : Option ContractStore :=
  match (newAuthAccountContractsChangeFunction c (storeProvider store) addr false name code).1 with
  | .ok _ =>
    if validateNewContractCode code then
      some (updateAccountContractCode store addr name code)
    else
      none
  | .error _ => none

/-- Modelled from the spec: the legacy raw-key slot host state. Per the
host interface contract, AddEncodedAccountKey appends an encoded key to
an account and RevokeEncodedAccountKey removes a key from an account by
index and returns the encoded key. The account's key list is modelled
as a list of encoded keys; adding appends, and revoking at an index
returns the key stored at that index. -/
structure SlotHost where
  keys : List Bytes
deriving Repr

/-- Modelled from the spec: the slot host state after appending one
encoded key. -/
def SlotHost.addEncoded (s : SlotHost) (key : Bytes) : SlotHost :=
  ⟨s.keys ++ [key]⟩

/-- Modelled from the spec: the slot host's response to
RevokeEncodedAccountKey at an index: the key stored at that index, or an
error when the index is out of range. -/
def SlotHost.revokeEncoded (s : SlotHost) (index : Int) : Except HostErr Bytes :=
  if 0 ≤ index then
    match s.keys.get? index.toNat with
    | some key => .ok key
    | none => .error "encoded key index out of range"
  else
    .error "encoded key index out of range"

/-- The encoded-key addition handler of a slot host (addition of a fresh
key always succeeds; the state change is SlotHost.addEncoded). -/
def SlotHost.additionHandler (_s : SlotHost) : AccountEncodedKeyAdditionHandler :=
  ⟨fun _ _ => .ok ()⟩

/-- The encoded-key revocation handler reading a slot host state. -/
def SlotHost.revocationHandler (s : SlotHost) : AccountEncodedKeyRevocationHandler :=
  ⟨fun _ index => s.revokeEncoded index⟩

/-! Concrete fixtures used by witnesses and counterexamples. -/

/-- A concrete collaborator instance: programs are represented by a Bool
recording whether they declare an enum; code [9] parses to a program with
an enum, code [8] parses to one without, all other code is unparsable;
the hash is the identity. -/
def collabC : Collaborators Bool :=
  ⟨fun code => if code = [9] then some true
    else if code = [8] then some false
    else none,
   id,
   fun code => code⟩

/-- A concrete contract provider holding code [1] under every name. -/
def providerCodeOne : AccountContractProvider :=
  ⟨fun _ _ => .ok [1]⟩

/-- A concrete contract provider holding no code anywhere. -/
def providerEmptyCode : AccountContractProvider :=
  ⟨fun _ _ => .ok []⟩

/-- A concrete removal handler holding enum-declaring code [9] under every
name, whose removals succeed. -/
def removalHandlerEnum : AccountContractRemovalHandler :=
  ⟨⟨fun _ _ => .ok [9]⟩, fun _ _ => .ok ()⟩

/-- A concrete removal handler holding unparsable code [7] under every
name, whose removals succeed. -/
def removalHandlerUnparsable : AccountContractRemovalHandler :=
  ⟨⟨fun _ _ => .ok [7]⟩, fun _ _ => .ok ()⟩

/-- A concrete removal handler holding no code anywhere. -/
def removalHandlerEmpty : AccountContractRemovalHandler :=
  ⟨⟨fun _ _ => .ok []⟩, fun _ _ => .ok ()⟩

/-- A concrete account key. -/
def accountKeyC : AccountKey :=
  ⟨0, ⟨[4, 5], 1⟩, 1, 1000, false⟩

/-- A concrete key provider that reports a host error at every index. -/
def keyProviderErr : AccountKeyProvider :=
  ⟨fun _ _ => .error "storage failure"⟩

/-- A concrete key revocation handler holding accountKeyC at every index. -/
def keyRevocationHandlerSome : AccountKeyRevocationHandler :=
  ⟨fun _ _ => .ok (some accountKeyC)⟩

/-- A concrete storage-used provider whose commit succeeds. -/
def storageUsedProviderC : StorageUsedProvider :=
  ⟨fun _ => .ok (), fun _ => .ok 42⟩

/-- A concrete storage-capacity provider whose commit succeeds. -/
def storageCapacityProviderC : StorageCapacityProvider :=
  ⟨fun _ => .ok (), fun _ => .ok 100⟩

/-- The slot host after adding the single key [1, 2, 3] to an account
with no prior keys. -/
def slotAfterAdd : SlotHost :=
  SlotHost.addEncoded ⟨[]⟩ [1, 2, 3]

/-- A concrete contract store holding no code anywhere. -/
def emptyStore : ContractStore :=
  fun _ _ => []

/-! Claim theorems. -/

/-- C1: for every address, contract name, and code, the contract change
function with isUpdate = false (add) fails with a user fault when
GetAccountContractCode returns non-empty existing code, and with
isUpdate = true (update) it fails with a user fault when the existing
code is empty; in both failure cases no host mutation is performed and
no event is emitted. -/
theorem contractsChange_precondition_faults {P : Type} (c : Collaborators P)
    (handler : AccountContractProvider) (addr : Address) (name : String)
    (code existing : Bytes)
    (hget : handler.GetAccountContractCode addr name = .ok existing) :
    (existing ≠ [] →
      (∃ msg, (newAuthAccountContractsChangeFunction c handler addr false name code).1
          = .error (.userError msg))
      ∧ noMutation (newAuthAccountContractsChangeFunction c handler addr false name code).2 = true
      ∧ noEmit (newAuthAccountContractsChangeFunction c handler addr false name code).2 = true)
    ∧ (existing = [] →
      (∃ msg, (newAuthAccountContractsChangeFunction c handler addr true name code).1
          = .error (.userError msg))
      ∧ noMutation (newAuthAccountContractsChangeFunction c handler addr true name code).2 = true
      ∧ noEmit (newAuthAccountContractsChangeFunction c handler addr true name code).2 = true) := by
  by_cases hname : name = ""
  · subst hname
    exact ⟨fun _ => ⟨⟨_, rfl⟩, rfl, rfl⟩, fun _ => ⟨⟨_, rfl⟩, rfl, rfl⟩⟩
  · constructor
    · intro hne
      have hlen : existing.length > 0 := List.length_pos.mpr hne
      simp [newAuthAccountContractsChangeFunction, hname, hget, hlen,
        noMutation, noEmit, HostCall.isMutation, HostCall.isEmit]
    · intro hemp
      subst hemp
      simp [newAuthAccountContractsChangeFunction, hname, hget,
        noMutation, noEmit, HostCall.isMutation, HostCall.isEmit]

/-- C1 witness: a concrete add over a provider that already holds code. -/
theorem contractsChange_precondition_faults_witness :
    (∃ msg, (newAuthAccountContractsChangeFunction collabC providerCodeOne 1 false "A" [2]).1
        = .error (.userError msg))
    ∧ noMutation (newAuthAccountContractsChangeFunction collabC providerCodeOne 1 false "A" [2]).2 = true
    ∧ noEmit (newAuthAccountContractsChangeFunction collabC providerCodeOne 1 false "A" [2]).2 = true :=
  (contractsChange_precondition_faults collabC providerCodeOne 1 "A" [2] [1] rfl).1 (by decide)

/-- C2: contracts.remove on an account whose existing stored code is
non-empty, parses, and declares an enum fails with the dedicated
ContractRemovalError; the trace is the single GetAccountContractCode
read, so RemoveAccountContractCode and RecordContractRemoval are never
called and no event is emitted. -/
theorem contractsRemove_enum_fault {P : Type} (c : Collaborators P)
    (handler : AccountContractRemovalHandler) (addr : Address) (name : String)
    (code : Bytes) (p : P)
    (hget : handler.GetAccountContractCode addr name = .ok code)
    (hne : code ≠ [])
    (hparse : c.parseProgram code = some p)
    (henum : c.containsEnumsInProgram p = true) :
    newAuthAccountContractsRemoveFunction c handler addr name
      = (.error (.contractRemoval name), [.getAccountContractCode addr name])
    ∧ noMutation (newAuthAccountContractsRemoveFunction c handler addr name).2 = true
    ∧ noEmit (newAuthAccountContractsRemoveFunction c handler addr name).2 = true := by
  have hlen : code.length > 0 := List.length_pos.mpr hne
  simp [newAuthAccountContractsRemoveFunction, hget, hlen, hparse, henum,
    noMutation, noEmit, HostCall.isMutation, HostCall.isEmit]

/-- C2 witness: a concrete removal over enum-declaring stored code. -/
theorem contractsRemove_enum_fault_witness :
    newAuthAccountContractsRemoveFunction collabC removalHandlerEnum 1 "A"
      = (.error (.contractRemoval "A"), [.getAccountContractCode 1 "A"])
    ∧ noMutation (newAuthAccountContractsRemoveFunction collabC removalHandlerEnum 1 "A").2 = true
    ∧ noEmit (newAuthAccountContractsRemoveFunction collabC removalHandlerEnum 1 "A").2 = true :=
  contractsRemove_enum_fault collabC removalHandlerEnum 1 "A" [9] true rfl (by decide) rfl rfl

/-- C6: contracts.remove on an account whose GetAccountContractCode
returns empty code with no error returns nil, and its trace is the
single read: no event, no RemoveAccountContractCode, no
RecordContractRemoval. -/
theorem contractsRemove_absent_nil {P : Type} (c : Collaborators P)
    (handler : AccountContractRemovalHandler) (addr : Address) (name : String)
    (hget : handler.GetAccountContractCode addr name = .ok []) :
    newAuthAccountContractsRemoveFunction c handler addr name
      = (.ok .nil, [.getAccountContractCode addr name])
    ∧ noMutation (newAuthAccountContractsRemoveFunction c handler addr name).2 = true
    ∧ noEmit (newAuthAccountContractsRemoveFunction c handler addr name).2 = true := by
  simp [newAuthAccountContractsRemoveFunction, hget,
    noMutation, noEmit, HostCall.isMutation, HostCall.isEmit]

/-- C6 witness: a concrete removal of a never-added name. -/
theorem contractsRemove_absent_nil_witness :
    newAuthAccountContractsRemoveFunction collabC removalHandlerEmpty 1 "A"
      = (.ok .nil, [.getAccountContractCode 1 "A"])
    ∧ noMutation (newAuthAccountContractsRemoveFunction collabC removalHandlerEmpty 1 "A").2 = true
    ∧ noEmit (newAuthAccountContractsRemoveFunction collabC removalHandlerEmpty 1 "A").2 = true :=
  contractsRemove_absent_nil collabC removalHandlerEmpty 1 "A" rfl

/-- C7: contracts.remove on non-empty existing code that does not parse
does not raise the enum-removal legality fault: it calls
RemoveAccountContractCode then RecordContractRemoval, emits
AccountContractRemoved, and returns a present option wrapping the
removed code. -/
theorem contractsRemove_unparsable_proceeds {P : Type} (c : Collaborators P)
    (handler : AccountContractRemovalHandler) (addr : Address) (name : String)
    (code : Bytes)
    (hget : handler.GetAccountContractCode addr name = .ok code)
    (hne : code ≠ [])
    (hparse : c.parseProgram code = none)
    (hrem : handler.RemoveAccountContractCode addr name = .ok ()) :
    newAuthAccountContractsRemoveFunction c handler addr name
      = (.ok (.someValue (.deployedContract addr name code)),
         [.getAccountContractCode addr name,
          .removeAccountContractCode addr name,
          .recordContractRemoval addr name,
          .emitEvent ⟨.accountContractRemoved,
                      [.address addr, Value.bytes (c.sha3Sum256 code), .string name]⟩]) := by
  have hlen : code.length > 0 := List.length_pos.mpr hne
  simp [newAuthAccountContractsRemoveFunction, hget, hlen, hparse, hrem, CodeToHashValue]

/-- C7 witness: a concrete removal of unparsable stored code. -/
theorem contractsRemove_unparsable_proceeds_witness :
    newAuthAccountContractsRemoveFunction collabC removalHandlerUnparsable 1 "A"
      = (.ok (.someValue (.deployedContract 1 "A" [7])),
         [.getAccountContractCode 1 "A",
          .removeAccountContractCode 1 "A",
          .recordContractRemoval 1 "A",
          .emitEvent ⟨.accountContractRemoved,
                      [.address 1, Value.bytes [7], .string "A"]⟩]) :=
  contractsRemove_unparsable_proceeds collabC removalHandlerUnparsable 1 "A" [7]
    rfl (by decide) rfl rfl

/-- C10: an invocation of the contract change function that passes its
preconditions performs exactly one GetAccountContractCode read followed
by one EmitEvent and nothing else: no mutating host method is called,
so the stored code is unchanged by this layer. -/
theorem contractsChange_frame {P : Type} (c : Collaborators P)
    (handler : AccountContractProvider) (addr : Address) (isUpdate : Bool)
    (name : String) (code existing : Bytes)
    (hname : name ≠ "")
    (hget : handler.GetAccountContractCode addr name = .ok existing)
    (hpre : if isUpdate then existing ≠ [] else existing = []) :
    newAuthAccountContractsChangeFunction c handler addr isUpdate name code
      = (.ok (.deployedContract addr name code),
         [.getAccountContractCode addr name,
          .emitEvent ⟨(if isUpdate then .accountContractUpdated else .accountContractAdded),
                      [.address addr, Value.bytes (c.sha3Sum256 code), .string name]⟩]) := by
  cases isUpdate with
  | false =>
    simp only [if_neg Bool.false_ne_true] at hpre
    subst hpre
    simp [newAuthAccountContractsChangeFunction, hname, hget,
      contractsChangeEmitAndReturn, CodeToHashValue]
  | true =>
    simp only [if_pos rfl] at hpre
    have hlen : ¬ (existing.length = 0) := by
      simpa [List.length_eq_zero] using hpre
    simp [newAuthAccountContractsChangeFunction, hname, hget, hlen,
      contractsChangeEmitAndReturn, CodeToHashValue]

/-- C10 witness: a concrete add over a provider holding no code. -/
theorem contractsChange_frame_witness :
    newAuthAccountContractsChangeFunction collabC providerEmptyCode 2 false "C" [5]
      = (.ok (.deployedContract 2 "C" [5]),
         [.getAccountContractCode 2 "C",
          .emitEvent ⟨.accountContractAdded, [.address 2, Value.bytes [5], .string "C"]⟩]) :=
  contractsChange_frame collabC providerEmptyCode 2 false "C" [5] []
    (by decide) rfl (by decide)

/-- C3: keys.get returns nil exactly when GetAccountKey returns a nil key
with a nil error; a non-nil host error is a hard fault (never an
option), and a non-nil key yields a present option wrapping the
AccountKey — absence is never signaled through the error channel. -/
theorem keysGet_absence_discipline (provider : AccountKeyProvider)
    (addr : Address) (index : Int) :
    ((newAccountKeysGetFunction provider addr index).1 = .ok .nil
        ↔ provider.GetAccountKey addr index = .ok none)
    ∧ (∀ e, provider.GetAccountKey addr index = .error e →
        (newAccountKeysGetFunction provider addr index).1 = .error (.hostError e))
    ∧ (∀ k, provider.GetAccountKey addr index = .ok (some k) →
        (newAccountKeysGetFunction provider addr index).1
          = .ok (.someValue (NewAccountKeyValue k))) := by
  cases hres : provider.GetAccountKey addr index with
  | error e => simp [newAccountKeysGetFunction, hres]
  | ok o => cases o <;> simp [newAccountKeysGetFunction, hres]

/-- C3 witness: a concrete key provider whose read reports a host error. -/
theorem keysGet_absence_discipline_witness :
    (newAccountKeysGetFunction keyProviderErr 1 0).1
      = .error (.hostError "storage failure") :=
  (keysGet_absence_discipline keyProviderErr 1 0).2.1 "storage failure" rfl

/-- C4: the storage-used and storage-capacity getters call CommitStorage
with commitContractUpdates = false as their first host interaction; the
measurement query follows the commit and is issued exactly when the
commit succeeded. -/
theorem storage_commit_before_query (pu : StorageUsedProvider)
    (pc : StorageCapacityProvider) (addr : Address) :
    ((newStorageUsedGetFunction pu addr).2.head? = some (.commitStorage false)
      ∧ (pu.CommitStorage false = .ok () →
          (newStorageUsedGetFunction pu addr).2
            = [.commitStorage false, .getStorageUsed addr])
      ∧ (∀ e, pu.CommitStorage false = .error e →
          newStorageUsedGetFunction pu addr
            = (.error (.hostError e), [.commitStorage false])))
    ∧ ((newStorageCapacityGetFunction pc addr).2.head? = some (.commitStorage false)
      ∧ (pc.CommitStorage false = .ok () →
          (newStorageCapacityGetFunction pc addr).2
            = [.commitStorage false, .getStorageCapacity addr])
      ∧ (∀ e, pc.CommitStorage false = .error e →
          newStorageCapacityGetFunction pc addr
            = (.error (.hostError e), [.commitStorage false]))) := by
  constructor
  · cases hc : pu.CommitStorage false with
    | error e => simp [newStorageUsedGetFunction, hc]
    | ok u =>
      cases hg : pu.GetStorageUsed addr <;>
        simp [newStorageUsedGetFunction, hc, hg]
  · cases hc : pc.CommitStorage false with
    | error e => simp [newStorageCapacityGetFunction, hc]
    | ok u =>
      cases hg : pc.GetStorageCapacity addr <;>
        simp [newStorageCapacityGetFunction, hc, hg]

/-- C4 witness: concrete storage providers whose commits succeed. -/
theorem storage_commit_before_query_witness :
    (newStorageUsedGetFunction storageUsedProviderC 1).2
      = [.commitStorage false, .getStorageUsed 1] :=
  (storage_commit_before_query storageUsedProviderC storageCapacityProviderC 1).1.2.1 rfl

/-- C5: keys.revoke emits exactly one AccountKeyRemoved event, with
payload (address, index), and only after RevokeAccountKey has returned
successfully with a non-nil key; when the host returns a nil key or an
error, no event is emitted. -/
theorem keysRevoke_event_discipline (handler : AccountKeyRevocationHandler)
    (addr : Address) (index : Int) :
    (∀ k, handler.RevokeAccountKey addr index = .ok (some k) →
      newAccountKeysRevokeFunction handler addr index
        = (.ok (.someValue (NewAccountKeyValue k)),
           [.revokeAccountKey addr index,
            .emitEvent ⟨.accountKeyRemoved, [.address addr, .int index]⟩]))
    ∧ (handler.RevokeAccountKey addr index = .ok none →
        noEmit (newAccountKeysRevokeFunction handler addr index).2 = true)
    ∧ (∀ e, handler.RevokeAccountKey addr index = .error e →
        noEmit (newAccountKeysRevokeFunction handler addr index).2 = true) := by
  cases hres : handler.RevokeAccountKey addr index with
  | error e => simp [newAccountKeysRevokeFunction, hres, noEmit, HostCall.isEmit]
  | ok o => cases o <;> simp [newAccountKeysRevokeFunction, hres, noEmit, HostCall.isEmit]

/-- C5 witness: a concrete revocation returning a present key. -/
theorem keysRevoke_event_discipline_witness :
    newAccountKeysRevokeFunction keyRevocationHandlerSome 1 0
      = (.ok (.someValue (NewAccountKeyValue accountKeyC)),
         [.revokeAccountKey 1 0,
          .emitEvent ⟨.accountKeyRemoved, [.address 1, .int 0]⟩]) :=
  (keysRevoke_event_discipline keyRevocationHandlerSome 1 0).1 accountKeyC rfl

/-- C8: a successful contracts.add(name, code) (precondition gate plus
the delegated validation and persistence) followed by contracts.get(name)
on the same account returns a present DeployedContract value whose code
equals the original bytes exactly. -/
theorem contracts_add_get_roundtrip {P : Type} (c : Collaborators P)
    (store store' : ContractStore) (addr : Address) (name : String)
    (code : Bytes)
    (hadd : contractsAddPipeline c store addr name code = some store') :
    (newAccountContractsGetFunction (storeProvider store') addr name).1
      = .ok (.someValue (.deployedContract addr name code)) := by
  unfold contractsAddPipeline at hadd
  cases hch : (newAuthAccountContractsChangeFunction c (storeProvider store) addr false name code).1 with
  | error e => rw [hch] at hadd; exact absurd hadd (by simp)
  | ok v =>
    rw [hch] at hadd
    by_cases hv : validateNewContractCode code = true
    · simp only [hv, if_true] at hadd
      have hst : store' = updateAccountContractCode store addr name code := by
        injection hadd with h
        exact h.symm
      subst hst
      have hcode : code ≠ [] := by
        unfold validateNewContractCode at hv
        simpa using hv
      have hlen : code.length > 0 := List.length_pos.mpr hcode
      simp [newAccountContractsGetFunction, storeProvider,
        updateAccountContractCode, hlen]
    · simp only [Bool.not_eq_true] at hv
      simp only [hv, Bool.false_eq_true, if_false] at hadd
      exact absurd hadd (by simp)

/-- C8 witness: adding code [1, 2] under name A to an empty store and
reading it back. -/
theorem contracts_add_get_roundtrip_witness :
    (newAccountContractsGetFunction
        (storeProvider (updateAccountContractCode emptyStore 3 "A" [1, 2])) 3 "A").1
      = .ok (.someValue (.deployedContract 3 "A" [1, 2])) :=
  contracts_add_get_roundtrip collabC emptyStore
    (updateAccountContractCode emptyStore 3 "A" [1, 2]) 3 "A" [1, 2] rfl

/-- C9 counterexample: after addEncodedKey(address 7, [1, 2, 3]) succeeds
on an account with no prior keys, the legacy revokeEncodedKey capability
function at index 0 returns Void to interpreted code, not the key bytes:
its result differs from any byte-array result. -/
theorem removePublicKey_returns_void_counterexample :
    (newRemovePublicKeyFunction (SlotHost.revocationHandler slotAfterAdd) 7 0).1
      = .ok .void
    ∧ (Except.ok Value.void : Except Fault Value) ≠ .ok (.bytes [1, 2, 3]) := by
  constructor
  · rfl
  · intro h
    exact Value.noConfusion (Except.ok.inj h)

/-- C9 (amended): after addEncodedKey(address, keyBytes) succeeds on an
account with no prior keys, revokeEncodedKey(address, 0) obtains
keyBytes unchanged from the host, emits an AccountKeyRemoved event whose
payload is (address, keyBytes), and returns Void to interpreted code. -/
theorem addEncoded_then_revokeEncoded (addr : Address) (keyBytes : Bytes) :
    (newAddPublicKeyFunction (SlotHost.additionHandler ⟨[]⟩) addr keyBytes).1
      = .ok .void
    ∧ newRemovePublicKeyFunction
        (SlotHost.revocationHandler (SlotHost.addEncoded ⟨[]⟩ keyBytes)) addr 0
      = (.ok .void,
         [.revokeEncodedAccountKey addr 0,
          .emitEvent ⟨.accountKeyRemoved, [.address addr, .bytes keyBytes]⟩]) := by
  constructor
  · rfl
  · simp [newRemovePublicKeyFunction, SlotHost.revocationHandler,
      SlotHost.revokeEncoded, SlotHost.addEncoded]

end Cadence
